import Mathlib

/-!
Shallow embedding of the grid position/reordering subsystem of the
campus_app repository (src/models.py, src/image/index.py, src/video/index.py).

The persistent store is modelled as a list of rows (the image table and the
video table).  SQL UPDATE statements with a WHERE id clause become maps over
the row list; SELECT ... WHERE campus_id ... ORDER BY sort_order becomes a
filter followed by a stable insertion sort on sort_order (the secondary
ORDER BY created_at DESC tie-break is not modelled; it only matters when two
records of one container share a sort_order).  Widget dictionaries keyed by
(row, col) are modelled as lookup functions derived exactly the way
display_images builds them.
-/

namespace CampusApp

/-! Grid layout engine: pure arithmetic from src/image/index.py and
src/video/index.py. -/

/-- ImageIndexWidget.max_cells (src/image/index.py line 335): the fixed
5×3 grid capacity. -/
def maxCells : Nat := 15

/-- calculate_responsive_columns (src/image/index.py lines 455-465 and the
identical src/video/index.py lines 530-540): clamp
(window_width - margin) // (card_width + spacing) to the range [2, 5].
Python floor division on a possibly negative int is Int.fdiv. -/
def calculateResponsiveColumns (windowWidth : Int) : Int :=
  let cardWidth : Int := 250
  let spacing : Int := 10
  let margin : Int := 80
  let availableWidth := windowWidth - margin
  let calculatedColumns := availableWidth.fdiv (cardWidth + spacing)
  max 2 (min 5 calculatedColumns)

/-- get_max_rows (src/image/index.py lines 467-469):
max_cells // columns + (1 if max_cells % columns > 0 else 0). -/
def getMaxRows (columns : Nat) : Nat :=
  maxCells / columns + (if maxCells % columns > 0 then 1 else 0)

/-- The position-to-cell mapping used by display_images
(src/image/index.py lines 852-853): row = (sort_order - 1) // columns,
col = (sort_order - 1) % columns. -/
def positionToCell (position columns : Nat) : Nat × Nat :=
  ((position - 1) / columns, (position - 1) % columns)

/-- The cell-to-position mapping used by move_image
(src/image/index.py lines 640-641) and update_video_order
(src/video/index.py line 485): sort_order = row * columns + col + 1. -/
def cellToPosition (row col columns : Nat) : Nat :=
  row * columns + col + 1

/-- get_grid_position_from_point (src/image/index.py lines 585-624), applied
to the point already made relative to the grid container.  Negative adjusted
coordinates are clamped to 0, then integer-divided by card size + spacing;
cells outside [0, max_rows) × [0, columns) yield the sentinel (-1, -1). -/
def gridPositionFromPoint (relX relY marginX marginY : Int) (columns : Nat) :
    Int × Int :=
  let cardWidth : Int := 250
  let cardHeight : Int := 300
  let spacing : Int := 10
  let maxRows := getMaxRows columns
  let adjustedX := relX - marginX
  let adjustedY := relY - marginY
  let adjustedX := if adjustedX < 0 then 0 else adjustedX
  let adjustedY := if adjustedY < 0 then 0 else adjustedY
  let col := adjustedX.fdiv (cardWidth + spacing)
  let row := adjustedY.fdiv (cardHeight + spacing)
  if 0 ≤ row ∧ row < (maxRows : Int) ∧ 0 ≤ col ∧ col < (columns : Int) then
    (row, col)
  else (-1, -1)

/-! Record store rows (src/models.py).  A stored image row always has an id;
the in-memory model object before save may not (Image.__init__ defaults
id=None), see ImageModel below. -/

/-- A row of the image table: id, campus_id, name, file_data, sort_order
(src/models.py lines 142-151; timestamps are not modelled). -/
structure ImageRec where
  id : Nat
  campusId : Nat
  name : String
  fileData : String
  sortOrder : Nat
deriving DecidableEq, Repr

/-- A row of the video table: id, campus_id, file_path, thumbnail_path,
sort_order (src/models.py lines 282-291). -/
structure VideoRec where
  id : Nat
  campusId : Nat
  filePath : String
  thumbnailPath : String
  sortOrder : Nat
deriving DecidableEq, Repr

/-- Stable insertion of one element into a list sorted ascending by key. -/
def sortIns {α : Type} (key : α → Nat) (x : α) : List α → List α
  | [] => [x]
  | y :: ys => if key x ≤ key y then x :: y :: ys else y :: sortIns key x ys

/-- Stable ascending sort by key, modelling ORDER BY sort_order ASC. -/
def sortByKey {α : Type} (key : α → Nat) (l : List α) : List α :=
  l.foldr (sortIns key) []

/-- Image.get_by_campus_id (src/models.py lines 153-178): the rows of one
container, ordered by sort_order ascending. -/
def imagesOf (db : List ImageRec) (campusId : Nat) : List ImageRec :=
  sortByKey (fun r => r.sortOrder) (db.filter (fun r => r.campusId = campusId))

/-- Video.get_by_campus_id (src/models.py lines 293-318). -/
def videosOf (db : List VideoRec) (campusId : Nat) : List VideoRec :=
  sortByKey (fun r => r.sortOrder) (db.filter (fun r => r.campusId = campusId))

/-- find_image_by_sort_order (src/image/index.py lines 478-483): first
loaded image whose sort_order matches. -/
def findImageBySortOrder (images : List ImageRec) (sortOrder : Nat) :
    Option ImageRec :=
  images.find? (fun img => img.sortOrder = sortOrder)

/-- The image_cards dictionary entry at cell (row, col), exactly as
display_images populates it (src/image/index.py lines 850-874): the loop
visits sort_order 1..15, places each at ((so-1)//columns, (so-1)%columns)
and skips rows ≥ max_rows, so cell (row, col) holds the image found at
sort_order row*columns+col+1 when that cell is inside the rendered grid,
and is absent otherwise. -/
def cardAt (images : List ImageRec) (columns row col : Nat) :
    Option ImageRec :=
  let so := row * columns + col + 1
  if col < columns ∧ row < getMaxRows columns ∧ so ≤ maxCells then
    findImageBySortOrder images so
  else none

/-- One UPDATE image SET sort_order = ? WHERE id = ? statement
(src/image/index.py lines 657-659, 680). -/
def updSortOrder (db : List ImageRec) (imageId newSortOrder : Nat) :
    List ImageRec :=
  db.map (fun r => if r.id = imageId then { r with sortOrder := newSortOrder }
                   else r)

/-- Apply a sequence of (id, sort_order) UPDATE statements in order. -/
def applyWrites (db : List ImageRec) (writes : List (Nat × Nat)) :
    List ImageRec :=
  writes.foldl (fun d w => updSortOrder d w.1 w.2) db

/-- The ordered list of sort_order writes issued by
ImageIndexWidget.move_image (src/image/index.py lines 626-699): nothing if
the source cell holds no card; for an occupied target cell the three-step
swap through the temporary value 999999 (lines 657-659); otherwise the
single direct write (line 680). -/
def moveImageWrites (images : List ImageRec)
    (columns fromRow fromCol toRow toCol : Nat) : List (Nat × Nat) :=
  match cardAt images columns fromRow fromCol with
  | none => []
  | some card =>
    let fromSortOrder := fromRow * columns + fromCol + 1
    let toSortOrder := toRow * columns + toCol + 1
    match cardAt images columns toRow toCol with
    | some targetCard =>
        [(card.id, 999999), (targetCard.id, fromSortOrder),
         (card.id, toSortOrder)]
    | none => [(card.id, toSortOrder)]

/-- Database effect of ImageIndexWidget.move_image for a widget whose state
was loaded from db (move_image reloads via load_images afterwards, so
successive moves always act on freshly loaded state). -/
def moveImage (db : List ImageRec)
    (campusId columns fromRow fromCol toRow toCol : Nat) : List ImageRec :=
  applyWrites db
    (moveImageWrites (imagesOf db campusId) columns fromRow fromCol toRow toCol)

/-- A move expressed between grid positions: the drop pipeline converts
positions to cells with the display_images mapping
(row = (p-1)//columns, col = (p-1)%columns) before calling move_image. -/
def moveImageByPosition (db : List ImageRec)
    (campusId columns fromPos toPos : Nat) : List ImageRec :=
  moveImage db campusId columns
    ((fromPos - 1) / columns) ((fromPos - 1) % columns)
    ((toPos - 1) / columns) ((toPos - 1) % columns)

/-! Position allocator (src/models.py). -/

/-- SELECT COALESCE(MAX(sort_order), 0) FROM image WHERE campus_id = ?
(src/models.py lines 207-213). -/
def maxSortOrder (db : List ImageRec) (campusId : Nat) : Nat :=
  ((db.filter (fun r => r.campusId = campusId)).map
    (fun r => r.sortOrder)).foldl max 0

/-- SELECT COUNT(*) FROM image WHERE campus_id = ? AND sort_order = ?
(src/models.py line 218). -/
def countImagesAt (db : List ImageRec) (campusId sortOrder : Nat) : Nat :=
  (db.filter (fun r => r.campusId = campusId ∧ r.sortOrder = sortOrder)).length

/-- Image._get_next_sort_order (src/models.py lines 204-225): propose
MAX(sort_order)+1; if the proposal exceeds 15, scan positions 1..15 in order
for the first unoccupied one, and fall back to 1 when all are occupied. -/
def getNextSortOrder (db : List ImageRec) (campusId : Nat) : Nat :=
  let nextOrder := maxSortOrder db campusId + 1
  if nextOrder > 15 then
    match (List.range' 1 15).find? (fun i => countImagesAt db campusId i = 0) with
    | some i => i
    | none => 1
  else nextOrder

/-- The in-memory Image object handed to save: id is None for a record not
yet inserted (src/models.py lines 142-151). -/
structure ImageModel where
  id : Option Nat
  campusId : Nat
  name : String
  fileData : String
  sortOrder : Nat
deriving DecidableEq, Repr

/-- Image.save (src/models.py lines 227-263).  Create path (id None):
sort_order 0 triggers allocation, then the [1,15] range check guards the
INSERT (newId stands for the autoincrement lastrowid).  Update path: the
same range check guards the UPDATE of name, file_data and sort_order; a
ValueError is modelled as Except.error raised before any write, leaving the
table unchanged. -/
def imageSave (db : List ImageRec) (img : ImageModel) (newId : Nat) :
    Except String (List ImageRec × Nat) :=
  match img.id with
  | none =>
    let so := if img.sortOrder = 0 then getNextSortOrder db img.campusId
              else img.sortOrder
    if 1 ≤ so ∧ so ≤ 15 then
      Except.ok
        (db ++ [{ id := newId, campusId := img.campusId, name := img.name,
                  fileData := img.fileData, sortOrder := so }], newId)
    else
      Except.error ("sort_order must be between 1 and 15, got " ++ toString so)
  | some existingId =>
    if 1 ≤ img.sortOrder ∧ img.sortOrder ≤ 15 then
      Except.ok
        (db.map (fun r =>
          if r.id = existingId then
            { r with name := img.name, fileData := img.fileData,
                     sortOrder := img.sortOrder }
          else r), existingId)
    else
      Except.error ("sort_order must be between 1 and 15, got " ++
        toString img.sortOrder)

/-! Video grid (src/video/index.py). -/

/-- create_video_cards (src/video/index.py lines 422-449): the i-th video of
the loaded list is placed at cell (i // columns, i % columns) — placement is
by enumeration index, not by the stored sort_order. -/
def createVideoCards (videos : List VideoRec) (columns : Nat) :
    List (VideoRec × Nat × Nat) :=
  videos.enum.map (fun p => (p.2, p.1 / columns, p.1 % columns))

/-- update_video_order (src/video/index.py lines 480-497): recompute
sort_order = new_row * columns + new_col + 1, fetch the video by id and save
it (Video.save update path writes file_path, thumbnail_path and sort_order
for every row with that id, src/models.py lines 375-383). -/
def updateVideoOrder (db : List VideoRec)
    (videoId columns newRow newCol : Nat) : List VideoRec :=
  let newSortOrder := newRow * columns + newCol + 1
  match db.find? (fun v => v.id = videoId) with
  | some video =>
      db.map (fun r =>
        if r.id = videoId then
          { r with filePath := video.filePath,
                   thumbnailPath := video.thumbnailPath,
                   sortOrder := newSortOrder }
        else r)
  | none => db

/-! Responsive re-layout (src/image/index.py lines 876-908,
src/video/index.py lines 549-572). -/

/-- Widget state of the image index that survives a resize: the tracked
column count and the loaded record list (the card dictionaries are derived
from these by display_images). -/
structure ImageIndexState where
  currentColumns : Nat
  images : List ImageRec
deriving DecidableEq, Repr

/-- ImageIndexWidget.refresh_layout_only: recompute the column count from
the window width; if unchanged return immediately, otherwise store the new
count and rebuild the derived layout from the already loaded images.  The
path contains no store write, so the table is threaded through unchanged;
the Bool records whether a rebuild happened. -/
def refreshLayoutOnlyImage (db : List ImageRec) (s : ImageIndexState)
    (windowWidth : Int) : ImageIndexState × List ImageRec × Bool :=
  let oldColumns := s.currentColumns
  let newColumns := (calculateResponsiveColumns windowWidth).toNat
  if oldColumns = newColumns then (s, db, false)
  else ({ s with currentColumns := newColumns }, db, true)

/-- Widget state of the video index: tracked column count and loaded
records backing the cards. -/
structure VideoIndexState where
  currentColumns : Nat
  videoCards : List VideoRec
deriving DecidableEq, Repr

/-- VideoIndexWidget.refresh_layout_only: no-op when the recomputed column
count is unchanged; otherwise reload the card list from the store
(load_videos) with the new column count.  No store write occurs. -/
def refreshLayoutOnlyVideo (db : List VideoRec) (s : VideoIndexState)
    (campusId : Nat) (windowWidth : Int) :
    VideoIndexState × List VideoRec × Bool :=
  let oldColumns := s.currentColumns
  let newColumns := (calculateResponsiveColumns windowWidth).toNat
  if oldColumns = newColumns then (s, db, false)
  else ({ currentColumns := newColumns, videoCards := videosOf db campusId },
        db, true)

/-! Helper lemmas about the embedding. -/

theorem sortIns_perm {α : Type} (key : α → Nat) (x : α) (l : List α) :
    (sortIns key x l).Perm (x :: l) := by
  induction l with
  | nil => exact List.Perm.refl _
  | cons y ys ih =>
    simp only [sortIns]
    by_cases h : key x ≤ key y
    · simp [h]
    · simpa [h] using (ih.cons y).trans (List.Perm.swap x y ys)

theorem sortByKey_perm {α : Type} (key : α → Nat) (l : List α) :
    (sortByKey key l).Perm l := by
  induction l with
  | nil => exact List.Perm.refl _
  | cons x xs ih =>
    exact (sortIns_perm key x (sortByKey key xs)).trans (ih.cons x)

theorem mem_imagesOf {db : List ImageRec} {campusId : Nat} {r : ImageRec} :
    r ∈ imagesOf db campusId ↔
      r ∈ db.filter (fun r => r.campusId = campusId) :=
  (sortByKey_perm _ _).mem_iff

theorem find?_eq_some_of_unique {α : Type} {l : List α} {p : α → Bool} {a : α}
    (ha : a ∈ l) (hpa : p a) (huniq : ∀ b ∈ l, p b → b = a) :
    l.find? p = some a := by
  induction l with
  | nil => cases ha
  | cons x xs ih =>
    by_cases hx : p x
    · rw [List.find?_cons_of_pos _ hx]
      exact congrArg some (huniq x (List.mem_cons_self x xs) hx)
    · rw [List.find?_cons_of_neg _ hx]
      rcases List.mem_cons.mp ha with h | h
      · exact absurd (h ▸ hpa) hx
      · exact ih h (fun b hb hpb => huniq b (List.mem_cons_of_mem x hb) hpb)

theorem eq_of_mem_of_nodup_ids {db : List ImageRec}
    (hids : (db.map (fun r => r.id)).Nodup)
    {a b : ImageRec} (ha : a ∈ db) (hb : b ∈ db) (h : a.id = b.id) : a = b :=
  List.inj_on_of_nodup_map hids ha hb h

theorem foldl_max_init_le (l : List Nat) (b : Nat) : b ≤ l.foldl max b := by
  induction l generalizing b with
  | nil => exact Nat.le_refl b
  | cons x xs ih => exact le_trans (Nat.le_max_left b x) (ih (max b x))

theorem le_foldl_max {l : List Nat} {a : Nat} (h : a ∈ l) (b : Nat) :
    a ≤ l.foldl max b := by
  induction l generalizing b with
  | nil => cases h
  | cons x xs ih =>
    rcases List.mem_cons.mp h with rfl | h2
    · exact le_trans (Nat.le_max_right b a) (foldl_max_init_le xs (max b a))
    · exact ih h2 (max b x)

theorem sortOrder_le_maxSortOrder {db : List ImageRec} {cid : Nat}
    {r : ImageRec} (hr : r ∈ db) (hc : r.campusId = cid) :
    r.sortOrder ≤ maxSortOrder db cid := by
  apply le_foldl_max
  exact List.mem_map_of_mem _ (List.mem_filter.mpr ⟨hr, by simp [hc]⟩)

theorem maxCells_le_getMaxRows_mul (c : Nat) (hc : 0 < c) :
    maxCells ≤ getMaxRows c * c := by
  have hdm := Nat.div_add_mod maxCells c
  have hmlt := Nat.mod_lt maxCells hc
  unfold getMaxRows
  by_cases hm : maxCells % c > 0
  · rw [if_pos hm]
    have hmul : (maxCells / c + 1) * c = c * (maxCells / c) + c := by ring
    omega
  · rw [if_neg hm, Nat.add_zero]
    have hmul : maxCells / c * c = c * (maxCells / c) := by ring
    omega

theorem posRow_lt_getMaxRows {c p : Nat} (hc : 0 < c) (hp1 : 1 ≤ p)
    (hp : p ≤ maxCells) : (p - 1) / c < getMaxRows c := by
  rw [Nat.div_lt_iff_lt_mul hc]
  have := maxCells_le_getMaxRows_mul c hc
  omega

theorem cardAt_position (images : List ImageRec) {c p : Nat} (hc : 0 < c)
    (hp1 : 1 ≤ p) (hp : p ≤ maxCells) :
    cardAt images c ((p - 1) / c) ((p - 1) % c) =
      findImageBySortOrder images p := by
  have hcol : (p - 1) % c < c := Nat.mod_lt _ hc
  have hrow : (p - 1) / c < getMaxRows c := posRow_lt_getMaxRows hc hp1 hp
  have hdm := Nat.div_add_mod (p - 1) c
  have hso : (p - 1) / c * c + (p - 1) % c + 1 = p := by
    have hcomm : (p - 1) / c * c = c * ((p - 1) / c) := Nat.mul_comm _ _
    omega
  simp only [cardAt]
  rw [hso, if_pos ⟨hcol, hrow, hp⟩]

/-! C3: the spec claims first-gap allocation; the code proposes max+1 and
only scans for gaps when the proposal exceeds 15. -/

/-- Container 1 with positions {1, 3} occupied. -/
def c3OccupiedOneThree : List ImageRec :=
  [{ id := 1, campusId := 1, name := "a", fileData := "da", sortOrder := 1 },
   { id := 2, campusId := 1, name := "b", fileData := "db", sortOrder := 3 }]

/-- Container 1 with positions {1, 2, 4} occupied. -/
def c3OccupiedOneTwoFour : List ImageRec :=
  [{ id := 1, campusId := 1, name := "a", fileData := "da", sortOrder := 1 },
   { id := 2, campusId := 1, name := "b", fileData := "db", sortOrder := 2 },
   { id := 3, campusId := 1, name := "c", fileData := "dc", sortOrder := 4 }]

/-- C3 counterexample: with positions {1,3} occupied the allocator returns
4 (max+1), not the smallest unoccupied position 2 the claim demands; with
{1,2,4} occupied it returns 5, not 3. -/
theorem c3_first_gap_counterexample :
    getNextSortOrder c3OccupiedOneThree 1 = 4
    ∧ getNextSortOrder c3OccupiedOneThree 1 ≠ 2
    ∧ getNextSortOrder c3OccupiedOneTwoFour 1 = 5
    ∧ getNextSortOrder c3OccupiedOneTwoFour 1 ≠ 3 := by decide

/-- C3 (amended): allocation for a new image record with position 0
proposes max(existing positions)+1 and returns that proposal whenever it is
at most 15, even when smaller positions are free; in particular with {1,3}
occupied it returns 4 and with {1,2,4} occupied it returns 5. -/
theorem c3_allocation_amended :
    (∀ (db : List ImageRec) (cid : Nat),
        maxSortOrder db cid + 1 ≤ 15 →
        getNextSortOrder db cid = maxSortOrder db cid + 1)
    ∧ getNextSortOrder c3OccupiedOneThree 1 = 4
    ∧ getNextSortOrder c3OccupiedOneTwoFour 1 = 5 := by
  refine ⟨?_, by decide, by decide⟩
  intro db cid h
  simp only [getNextSortOrder]
  rw [if_neg (by omega)]

/-- C3 amended witness: the general clause applied to the {1,3} container. -/
theorem c3_allocation_amended_witness :
    maxSortOrder c3OccupiedOneThree 1 + 1 ≤ 15
    ∧ getNextSortOrder c3OccupiedOneThree 1 =
        maxSortOrder c3OccupiedOneThree 1 + 1 :=
  ⟨by decide, c3_allocation_amended.1 c3OccupiedOneThree 1 (by decide)⟩

/-! C6: the two layout mappings are mutual inverses on the grid domain. -/

/-- C6: for columns in [2,5], position_to_cell and cell_to_position are
mutual inverses: cell_to_position (position_to_cell p) = p for every
position p in [1, columns*max_rows], and position_to_cell
(cell_to_position row col) = (row, col) for every cell with
row < max_rows and col < columns. -/
theorem c6_layout_inverses (columns p row col : Nat)
    (hc2 : 2 ≤ columns) (hc5 : columns ≤ 5)
    (hp1 : 1 ≤ p) (hpB : p ≤ columns * getMaxRows columns)
    (hrow : row < getMaxRows columns) (hcol : col < columns) :
    cellToPosition (positionToCell p columns).1 (positionToCell p columns).2
        columns = p
    ∧ positionToCell (cellToPosition row col columns) columns = (row, col) := by
  constructor
  · simp only [positionToCell, cellToPosition]
    have hdm := Nat.div_add_mod (p - 1) columns
    have hcomm : (p - 1) / columns * columns = columns * ((p - 1) / columns) :=
      Nat.mul_comm _ _
    omega
  · simp only [positionToCell, cellToPosition, Nat.add_sub_cancel]
    have h1 : (row * columns + col) / columns = row := by
      rw [Nat.mul_comm row columns, Nat.mul_add_div (by omega)]
      simp [Nat.div_eq_of_lt hcol]
    have h2 : (row * columns + col) % columns = col := by
      rw [Nat.mul_comm row columns, Nat.mul_add_mod]
      exact Nat.mod_eq_of_lt hcol
    simp [h1, h2]

/-- C6 witness at columns = 5, p = 7, cell (1, 2). -/
theorem c6_layout_inverses_witness :
    (2 ≤ 5 ∧ 5 ≤ 5 ∧ 1 ≤ 7 ∧ 7 ≤ 5 * getMaxRows 5 ∧ 1 < getMaxRows 5 ∧ 2 < 5)
    ∧ (cellToPosition (positionToCell 7 5).1 (positionToCell 7 5).2 5 = 7
       ∧ positionToCell (cellToPosition 1 2 5) 5 = (1, 2)) :=
  ⟨by decide,
   c6_layout_inverses 5 7 1 2 (by decide) (by decide) (by decide) (by decide)
     (by decide) (by decide)⟩

/-! C7: a completely full container falls back to position 1. -/

/-- Container 1 with all positions 1..15 occupied. -/
def c7FullDb : List ImageRec :=
  (List.range' 1 15).map
    (fun i => { id := i, campusId := 1, name := "img", fileData := "d",
                sortOrder := i })

/-- C7: when every position 1..15 of a container is occupied, the proposal
max+1 exceeds 15, the scan over positions 1..15 finds no free slot, and
the allocator returns the documented fallback value 1. -/
theorem c7_full_container_fallback (db : List ImageRec) (cid : Nat)
    (hfull : ∀ i ∈ List.range' 1 15, 1 ≤ countImagesAt db cid i) :
    15 < maxSortOrder db cid + 1
    ∧ (List.range' 1 15).find? (fun i => countImagesAt db cid i = 0) = none
    ∧ getNextSortOrder db cid = 1 := by
  have h15 : 1 ≤ countImagesAt db cid 15 := hfull 15 (by decide)
  have hex : ∃ r, r ∈ db.filter
      (fun r => r.campusId = cid ∧ r.sortOrder = 15) := by
    apply List.exists_mem_of_ne_nil
    intro hnil
    unfold countImagesAt at h15
    rw [hnil] at h15
    simp at h15
  obtain ⟨r, hr⟩ := hex
  have hr2 := List.mem_filter.mp hr
  have hrc : r.campusId = cid := by
    have := hr2.2
    simp at this
    exact this.1
  have hrso : r.sortOrder = 15 := by
    have := hr2.2
    simp at this
    exact this.2
  have hmax : 15 ≤ maxSortOrder db cid :=
    hrso ▸ sortOrder_le_maxSortOrder hr2.1 hrc
  have hnone : (List.range' 1 15).find?
      (fun i => countImagesAt db cid i = 0) = none := by
    apply List.find?_eq_none.mpr
    intro i hi
    have := hfull i hi
    simp
    omega
  refine ⟨by omega, hnone, ?_⟩
  simp only [getNextSortOrder]
  rw [if_pos (by omega), hnone]

/-- C7 witness: the fully occupied container. -/
theorem c7_full_container_fallback_witness :
    (∀ i ∈ List.range' 1 15, 1 ≤ countImagesAt c7FullDb 1 i)
    ∧ getNextSortOrder c7FullDb 1 = 1 :=
  ⟨by decide, (c7_full_container_fallback c7FullDb 1 (by decide)).2.2⟩

/-! Facts extracted from a successful card lookup, and the shape of the
three chained UPDATE statements of the swap branch. -/

theorem cardAt_some {images : List ImageRec} {columns row col : Nat}
    {card : ImageRec} (h : cardAt images columns row col = some card) :
    card.sortOrder = row * columns + col + 1
    ∧ card ∈ images
    ∧ findImageBySortOrder images (row * columns + col + 1) = some card := by
  simp only [cardAt] at h
  split at h
  · refine ⟨?_, ?_, h⟩
    · simpa [findImageBySortOrder] using List.find?_some h
    · exact List.mem_of_find?_eq_some (by simpa [findImageBySortOrder] using h)
  · cases h

theorem updSortOrder_swap_eq_map (db : List ImageRec) {a b : Nat}
    (x y z : Nat) (hab : a ≠ b) :
    updSortOrder (updSortOrder (updSortOrder db a x) b y) a z =
      db.map (fun r =>
        if r.id = a then { r with sortOrder := z }
        else if r.id = b then { r with sortOrder := y } else r) := by
  simp only [updSortOrder, List.map_map]
  apply List.map_congr_left
  intro r _
  simp only [Function.comp]
  by_cases h1 : r.id = a
  · simp [h1, hab, Ne.symm hab]
  · by_cases h2 : r.id = b
    · simp [h1, h2, Ne.symm hab]
    · simp [h1, h2]

/-! C2: the occupied-target move issues exactly the three writes
source → 999999, target → old source position, source → old target
position; the commit swaps the positions of the two records. -/

/-- C2: when the source cell holds card and the target cell holds a
different record target, move_image issues exactly three position writes in
order — source to the out-of-range sentinel 999999, then the old source
position onto the target record, then the old target position onto the
source record — and the committed table is the original one with the two
positions of the two records exchanged and every other record untouched. -/
theorem c2_swap_three_writes (db : List ImageRec)
    (campusId columns fromRow fromCol toRow toCol : Nat)
    (card target : ImageRec)
    (hcard : cardAt (imagesOf db campusId) columns fromRow fromCol = some card)
    (htarget : cardAt (imagesOf db campusId) columns toRow toCol = some target)
    (hne : target.id ≠ card.id) :
    moveImageWrites (imagesOf db campusId) columns fromRow fromCol toRow toCol =
      [(card.id, 999999), (target.id, fromRow * columns + fromCol + 1),
       (card.id, toRow * columns + toCol + 1)]
    ∧ maxCells < 999999
    ∧ card.sortOrder = fromRow * columns + fromCol + 1
    ∧ target.sortOrder = toRow * columns + toCol + 1
    ∧ moveImage db campusId columns fromRow fromCol toRow toCol =
        db.map (fun r =>
          if r.id = card.id then
            { r with sortOrder := toRow * columns + toCol + 1 }
          else if r.id = target.id then
            { r with sortOrder := fromRow * columns + fromCol + 1 }
          else r) := by
  have hw : moveImageWrites (imagesOf db campusId) columns fromRow fromCol
      toRow toCol =
      [(card.id, 999999), (target.id, fromRow * columns + fromCol + 1),
       (card.id, toRow * columns + toCol + 1)] := by
    simp only [moveImageWrites, hcard, htarget]
  refine ⟨hw, by decide, (cardAt_some hcard).1, (cardAt_some htarget).1, ?_⟩
  simp only [moveImage, hw, applyWrites, List.foldl_cons, List.foldl_nil]
  exact updSortOrder_swap_eq_map db 999999
    (fromRow * columns + fromCol + 1) (toRow * columns + toCol + 1)
    (Ne.symm hne)

/-- Record of container 1 at position 3 (cell (0,2) under 3 columns). -/
def c2RecA : ImageRec :=
  { id := 10, campusId := 1, name := "r3", fileData := "d3", sortOrder := 3 }

/-- Record of container 1 at position 7 (cell (2,0) under 3 columns). -/
def c2RecB : ImageRec :=
  { id := 11, campusId := 1, name := "r7", fileData := "d7", sortOrder := 7 }

/-- Table for the C2 witness. -/
def c2Db : List ImageRec := [c2RecA, c2RecB]

/-- C2 witness: the scenario move(from=3, to=7) with both cells occupied,
under 3 columns, leaves the records with exchanged positions. -/
theorem c2_swap_three_writes_witness :
    cardAt (imagesOf c2Db 1) 3 0 2 = some c2RecA
    ∧ cardAt (imagesOf c2Db 1) 3 2 0 = some c2RecB
    ∧ moveImage c2Db 1 3 0 2 2 0 =
        [{ c2RecA with sortOrder := 7 }, { c2RecB with sortOrder := 3 }] := by
  refine ⟨by decide, by decide, ?_⟩
  have h := (c2_swap_three_writes c2Db 1 3 0 2 2 0 c2RecA c2RecB
    (by decide) (by decide) (by decide)).2.2.2.2
  rw [h]
  decide

/-! C5: moving into an empty cell is a single write touching only the moved
record. -/

/-- C5: when the target cell is empty, the committed table is the original
one with only the position of the moved record replaced by the target
position; every other record (of every container) is unchanged, and no id,
container, name or payload changes. -/
theorem c5_simple_move_frame (db : List ImageRec)
    (campusId columns fromRow fromCol toRow toCol : Nat) (card : ImageRec)
    (hcard : cardAt (imagesOf db campusId) columns fromRow fromCol = some card)
    (hempty : cardAt (imagesOf db campusId) columns toRow toCol = none) :
    moveImage db campusId columns fromRow fromCol toRow toCol =
      db.map (fun r =>
        if r.id = card.id then
          { r with sortOrder := toRow * columns + toCol + 1 }
        else r)
    ∧ (∀ r ∈ db, r.id ≠ card.id →
        r ∈ moveImage db campusId columns fromRow fromCol toRow toCol)
    ∧ (moveImage db campusId columns fromRow fromCol toRow toCol).map
        (fun r => (r.id, r.campusId, r.name, r.fileData)) =
      db.map (fun r => (r.id, r.campusId, r.name, r.fileData)) := by
  have hmv : moveImage db campusId columns fromRow fromCol toRow toCol =
      db.map (fun r =>
        if r.id = card.id then
          { r with sortOrder := toRow * columns + toCol + 1 }
        else r) := by
    simp only [moveImage, moveImageWrites, hcard, hempty, applyWrites,
      List.foldl_cons, List.foldl_nil, updSortOrder]
  refine ⟨hmv, ?_, ?_⟩
  · intro r hr hne
    rw [hmv]
    have hfix : (fun r : ImageRec =>
        if r.id = card.id then
          { r with sortOrder := toRow * columns + toCol + 1 }
        else r) r = r := by simp [hne]
    exact hfix ▸ List.mem_map_of_mem _ hr
  · rw [hmv, List.map_map]
    apply List.map_congr_left
    intro r _
    by_cases h : r.id = card.id <;> simp [h, Function.comp]

/-- Record for the C5 witness, at position 3 under 3 columns. -/
def c5RecA : ImageRec :=
  { id := 20, campusId := 1, name := "m", fileData := "dm", sortOrder := 3 }

/-- Second record for the C5 witness, at position 1, untouched by the move. -/
def c5RecB : ImageRec :=
  { id := 21, campusId := 1, name := "s", fileData := "ds", sortOrder := 1 }

/-- Table for the C5 witness. -/
def c5Db : List ImageRec := [c5RecB, c5RecA]

/-- C5 witness: the scenario move(from=3, to=9) under 3 columns (cells
(0,2) → (2,2)) with the target empty moves only the one record. -/
theorem c5_simple_move_frame_witness :
    cardAt (imagesOf c5Db 1) 3 0 2 = some c5RecA
    ∧ cardAt (imagesOf c5Db 1) 3 2 2 = none
    ∧ moveImage c5Db 1 3 0 2 2 2 =
        [c5RecB, { c5RecA with sortOrder := 9 }] := by
  refine ⟨by decide, by decide, ?_⟩
  have h := (c5_simple_move_frame c5Db 1 3 0 2 2 2 c5RecA
    (by decide) (by decide)).1
  rw [h]
  decide

/-! C1: the capacity invariant is violated by the code.  With 2 columns the
hit test accepts cell (7,1) (row 7 < max_rows 8), display_images never
occupies that cell because its sort_order 16 exceeds max_cells, so
move_image takes the simple-move branch and writes sort_order 16 — outside
[1,15] — through raw SQL that bypasses the range check of Image.save. -/

/-- Container 1 holding a single record at position 1. -/
def c1Db : List ImageRec :=
  [{ id := 1, campusId := 1, name := "img1", fileData := "blob1",
     sortOrder := 1 }]

/-- C1 evaluation at the failing input: a 600px-wide window yields 2
columns, the drop hit test accepts cell (7,1), and moving the record from
cell (0,0) there stores sort_order 16, outside the claimed range [1,15]. -/
theorem c1_move_writes_position_16 :
    (calculateResponsiveColumns 600).toNat = 2
    ∧ gridPositionFromPoint 300 2200 0 0 2 = (7, 1)
    ∧ moveImage c1Db 1 2 0 0 7 1 =
        [{ id := 1, campusId := 1, name := "img1", fileData := "blob1",
           sortOrder := 16 }]
    ∧ ¬ (16 ≤ maxCells) := by decide

/-! C4: the video grid renders by enumeration index, not by stored
position, so the canonical mapping only describes rendering when the stored
positions are exactly 1..n. -/

/-- Video of container 1 at position 1. -/
def c4V1 : VideoRec :=
  { id := 1, campusId := 1, filePath := "a.mp4", thumbnailPath := "a.png",
    sortOrder := 1 }

/-- Video of container 1 at position 3 (a gap at position 2). -/
def c4V2 : VideoRec :=
  { id := 2, campusId := 1, filePath := "b.mp4", thumbnailPath := "b.png",
    sortOrder := 3 }

/-- Video table for the C4 counterexample. -/
def c4Db : List VideoRec := [c4V1, c4V2]

/-- C4 counterexample: with stored positions {1,3} and 4 columns,
create_video_cards renders the position-3 record at cell (0,1) — its
enumeration index — while the claimed mapping ((p-1)//columns,
(p-1)%columns) demands cell (0,2). -/
theorem c4_render_by_position_counterexample :
    createVideoCards (videosOf c4Db 1) 4 = [(c4V1, 0, 0), (c4V2, 0, 1)]
    ∧ positionToCell c4V2.sortOrder 4 = (0, 2)
    ∧ (((0 : Nat), (1 : Nat)) : Nat × Nat) ≠ (0, 2) := by decide

/-- C4 (amended): the position recomputed on drop always satisfies the
canonical mapping position = row*columns + col + 1 (update_video_order
writes exactly that value), and the rendered cell of a record equals
position_to_cell of its stored position exactly when the stored positions
of the loaded list are contiguous 1..n; with gaps or duplicates the cell is
determined by the index of the record in the sorted list instead. -/
theorem c4_video_grid_amended :
    (∀ (db : List VideoRec) (videoId columns newRow newCol : Nat)
        (v : VideoRec),
        db.find? (fun r => r.id = videoId) = some v →
        updateVideoOrder db videoId columns newRow newCol =
          db.map (fun r =>
            if r.id = videoId then
              { r with filePath := v.filePath,
                       thumbnailPath := v.thumbnailPath,
                       sortOrder := newRow * columns + newCol + 1 }
            else r))
    ∧ (∀ (videos : List VideoRec) (columns i : Nat) (hi : i < videos.length),
        videos.map (fun v => v.sortOrder) = List.range' 1 videos.length →
        (createVideoCards videos columns)[i]? =
          some (videos.get ⟨i, hi⟩,
            positionToCell (videos.get ⟨i, hi⟩).sortOrder columns)) := by
  constructor
  · intro db videoId columns newRow newCol v hv
    simp only [updateVideoOrder, hv]
  · intro videos columns i hi hcontig
    have hso : videos[i].sortOrder = 1 + i := by
      have h1 : (videos.map (fun v => v.sortOrder))[i]? =
          some (videos[i].sortOrder) := by
        rw [List.getElem?_map, List.getElem?_eq_getElem hi]
        rfl
      rw [hcontig] at h1
      rw [List.getElem?_eq_getElem (by simpa using hi)] at h1
      have h2 := Option.some.inj h1
      rw [← h2, List.getElem_range']
      omega
    simp only [createVideoCards]
    rw [List.getElem?_map, List.getElem?_enum, List.getElem?_eq_getElem hi]
    simp [positionToCell, hso, List.get_eq_getElem]

/-- First contiguous video for the C4 witness. -/
def c4VA : VideoRec :=
  { id := 1, campusId := 1, filePath := "a.mp4", thumbnailPath := "ta",
    sortOrder := 1 }

/-- Second contiguous video for the C4 witness. -/
def c4VB : VideoRec :=
  { id := 2, campusId := 1, filePath := "b.mp4", thumbnailPath := "tb",
    sortOrder := 2 }

/-- Third contiguous video for the C4 witness. -/
def c4VC : VideoRec :=
  { id := 3, campusId := 1, filePath := "c.mp4", thumbnailPath := "tc",
    sortOrder := 3 }

/-- Video table with contiguous positions 1,2,3 for the C4 witness. -/
def c4ContigDb : List VideoRec := [c4VA, c4VB, c4VC]

/-- C4 amended witness: the drop write at cell (1,2) under 4 columns, and
the rendered cell of the third contiguous video under 2 columns. -/
theorem c4_video_grid_amended_witness :
    (c4ContigDb.find? (fun r => r.id = 3) = some c4VC
     ∧ updateVideoOrder c4ContigDb 3 4 1 2 =
        [c4VA, c4VB, { c4VC with sortOrder := 7 }])
    ∧ (c4ContigDb.map (fun v => v.sortOrder) =
        List.range' 1 c4ContigDb.length
       ∧ (createVideoCards c4ContigDb 2)[2]? =
          some (c4ContigDb.get ⟨2, by decide⟩,
            positionToCell (c4ContigDb.get ⟨2, by decide⟩).sortOrder 2)) := by
  refine ⟨⟨by decide, ?_⟩, by decide,
    c4_video_grid_amended.2 c4ContigDb 2 2 (by decide) (by decide)⟩
  rw [c4_video_grid_amended.1 c4ContigDb 3 4 1 2 c4VC (by decide)]
  decide

/-! C8: a resize never writes the store and is a no-op when the column
count is unchanged. -/

/-- C8: refresh_layout_only (image and video) returns the record store
unchanged for every window width — stored positions survive any resize —
the image widget also keeps its loaded record list (only the derived cells
change), and when the recomputed column count equals the current one the
whole operation is a no-op that performs no rebuild. -/
theorem c8_resize_stability (dbI : List ImageRec) (sI : ImageIndexState)
    (dbV : List VideoRec) (sV : VideoIndexState) (campusId : Nat) (w : Int) :
    (refreshLayoutOnlyImage dbI sI w).2.1 = dbI
    ∧ (refreshLayoutOnlyVideo dbV sV campusId w).2.1 = dbV
    ∧ (refreshLayoutOnlyImage dbI sI w).1.images = sI.images
    ∧ (sI.currentColumns = (calculateResponsiveColumns w).toNat →
        refreshLayoutOnlyImage dbI sI w = (sI, dbI, false))
    ∧ (sV.currentColumns = (calculateResponsiveColumns w).toNat →
        refreshLayoutOnlyVideo dbV sV campusId w = (sV, dbV, false)) := by
  unfold refreshLayoutOnlyImage refreshLayoutOnlyVideo
  by_cases hI : sI.currentColumns = (calculateResponsiveColumns w).toNat <;>
    by_cases hV : sV.currentColumns = (calculateResponsiveColumns w).toNat <;>
      simp [hI, hV]

/-- Image record for the C8 witness. -/
def c8ImgDb : List ImageRec :=
  [{ id := 30, campusId := 4, name := "p", fileData := "dp", sortOrder := 2 }]

/-- Video record for the C8 witness. -/
def c8VidDb : List VideoRec :=
  [{ id := 31, campusId := 5, filePath := "v.mp4", thumbnailPath := "tv",
     sortOrder := 2 }]

/-- C8 witness: at a 900px window the computed column count is 3, and a
widget already at 3 columns resizes to a complete no-op. -/
theorem c8_resize_stability_witness :
    ((3 : Nat) = (calculateResponsiveColumns 900).toNat
     ∧ refreshLayoutOnlyImage c8ImgDb
        { currentColumns := 3, images := c8ImgDb } 900 =
        ({ currentColumns := 3, images := c8ImgDb }, c8ImgDb, false))
    ∧ refreshLayoutOnlyVideo c8VidDb
        { currentColumns := 3, videoCards := c8VidDb } 5 900 =
        ({ currentColumns := 3, videoCards := c8VidDb }, c8VidDb, false) :=
  ⟨⟨by decide,
    (c8_resize_stability c8ImgDb { currentColumns := 3, images := c8ImgDb }
      c8VidDb { currentColumns := 3, videoCards := c8VidDb } 5 900).2.2.2.1
      (by decide)⟩,
   (c8_resize_stability c8ImgDb { currentColumns := 3, images := c8ImgDb }
      c8VidDb { currentColumns := 3, videoCards := c8VidDb } 5 900).2.2.2.2
      (by decide)⟩

/-! C10: the update path of Image.save never allocates and applies the same
[1,15] range check. -/

/-- C10: saving an image that already has an id never calls the allocator:
sort_order 0 (and any value outside [1,15]) is rejected with the range
ValueError before anything is written, a valid sort_order is written
verbatim, and automatic allocation can only happen on the create path
(id None) with sort_order 0. -/
theorem c10_update_no_allocation (db : List ImageRec) (img : ImageModel)
    (newId existingId : Nat) (hid : img.id = some existingId) :
    (img.sortOrder = 0 →
      imageSave db img newId =
        Except.error ("sort_order must be between 1 and 15, got " ++
          toString img.sortOrder))
    ∧ (¬(1 ≤ img.sortOrder ∧ img.sortOrder ≤ 15) →
      imageSave db img newId =
        Except.error ("sort_order must be between 1 and 15, got " ++
          toString img.sortOrder))
    ∧ (1 ≤ img.sortOrder ∧ img.sortOrder ≤ 15 →
      imageSave db img newId =
        Except.ok (db.map (fun r =>
          if r.id = existingId then
            { r with name := img.name, fileData := img.fileData,
                     sortOrder := img.sortOrder }
          else r), existingId))
    ∧ (∀ img2 : ImageModel, img2.id = none → img2.sortOrder ≠ 0 →
        imageSave db img2 newId =
          if 1 ≤ img2.sortOrder ∧ img2.sortOrder ≤ 15 then
            Except.ok (db ++ [{ id := newId, campusId := img2.campusId,
                                name := img2.name, fileData := img2.fileData,
                                sortOrder := img2.sortOrder }], newId)
          else
            Except.error ("sort_order must be between 1 and 15, got " ++
              toString img2.sortOrder)) := by
  refine ⟨?_, ?_, ?_, ?_⟩
  · intro h0
    simp only [imageSave, hid]
    rw [if_neg (by omega)]
  · intro hbad
    simp only [imageSave, hid]
    rw [if_neg hbad]
  · intro hok
    simp only [imageSave, hid]
    rw [if_pos hok]
  · intro img2 hnone hnz
    simp only [imageSave, hnone]
    rw [if_neg hnz]

/-- Stored row for the C10 witness. -/
def c10Db : List ImageRec :=
  [{ id := 7, campusId := 2, name := "old", fileData := "od", sortOrder := 4 }]

/-- Model object with an existing id and the sentinel sort_order 0. -/
def c10Model : ImageModel :=
  { id := some 7, campusId := 2, name := "new", fileData := "nd",
    sortOrder := 0 }

/-- C10 witness: updating an existing record with sort_order 0 raises the
range error instead of allocating. -/
theorem c10_update_no_allocation_witness :
    c10Model.id = some 7
    ∧ c10Model.sortOrder = 0
    ∧ imageSave c10Db c10Model 99 =
        Except.error "sort_order must be between 1 and 15, got 0" := by
  refine ⟨rfl, rfl, ?_⟩
  rw [(c10_update_no_allocation c10Db c10Model 99 7 rfl).1 rfl]
  rfl

/-! C9: swapping positions 2 and 5 and then swapping back restores the
original table exactly. -/

theorem cell_roundtrip (p c : Nat) (hp1 : 1 ≤ p) :
    (p - 1) / c * c + (p - 1) % c + 1 = p := by
  have hdm := Nat.div_add_mod (p - 1) c
  have hcomm : (p - 1) / c * c = c * ((p - 1) / c) := Nat.mul_comm _ _
  omega

theorem findImageBySortOrder_some {images : List ImageRec} {so : Nat}
    {a : ImageRec} (h : findImageBySortOrder images so = some a) :
    a ∈ images ∧ a.sortOrder = so := by
  unfold findImageBySortOrder at h
  exact ⟨List.mem_of_find?_eq_some h, by simpa using List.find?_some h⟩

theorem findImageBySortOrder_unique {images : List ImageRec} {so : Nat}
    {a : ImageRec} (ha : a ∈ images) (hso : a.sortOrder = so)
    (huniq : ∀ b ∈ images, b.sortOrder = so → b = a) :
    findImageBySortOrder images so = some a := by
  unfold findImageBySortOrder
  exact find?_eq_some_of_unique ha (by simp [hso])
    (fun b hb hpb => huniq b hb (by simpa using hpb))

theorem filter_map_campus (db : List ImageRec) (cid : Nat)
    (f : ImageRec → ImageRec) (hf : ∀ r, (f r).campusId = r.campusId) :
    (db.map f).filter (fun r => r.campusId = cid) =
      (db.filter (fun r => r.campusId = cid)).map f := by
  induction db with
  | nil => rfl
  | cons r t ih =>
    simp only [List.map_cons, List.filter_cons]
    by_cases h : r.campusId = cid
    · simp [hf r, h, ih]
    · simp [hf r, h, ih]

theorem mem_imagesOf_map {db : List ImageRec} {cid : Nat}
    (f : ImageRec → ImageRec) (hf : ∀ r, (f r).campusId = r.campusId)
    {y : ImageRec} :
    y ∈ imagesOf (db.map f) cid ↔ ∃ x, x ∈ imagesOf db cid ∧ f x = y := by
  rw [mem_imagesOf, filter_map_campus db cid f hf]
  constructor
  · intro h
    obtain ⟨x, hx, rfl⟩ := List.mem_map.mp h
    exact ⟨x, mem_imagesOf.mpr hx, rfl⟩
  · rintro ⟨x, hx, rfl⟩
    exact List.mem_map_of_mem f (mem_imagesOf.mp hx)

/-- The database effect of a position-to-position move whose source and
target positions are both occupied: the three-write swap exchanges the two
positions of the two found records. -/
theorem moveImageByPosition_swap (db : List ImageRec)
    (campusId columns p q : Nat) (A B : ImageRec) (hc : 0 < columns)
    (hp1 : 1 ≤ p) (hp15 : p ≤ maxCells) (hq1 : 1 ≤ q) (hq15 : q ≤ maxCells)
    (hA : findImageBySortOrder (imagesOf db campusId) p = some A)
    (hB : findImageBySortOrder (imagesOf db campusId) q = some B)
    (hne : A.id ≠ B.id) :
    moveImageByPosition db campusId columns p q =
      db.map (fun r =>
        if r.id = A.id then { r with sortOrder := q }
        else if r.id = B.id then { r with sortOrder := p } else r) := by
  have hcaP : cardAt (imagesOf db campusId) columns
      ((p - 1) / columns) ((p - 1) % columns) = some A :=
    (cardAt_position _ hc hp1 hp15).trans hA
  have hcaQ : cardAt (imagesOf db campusId) columns
      ((q - 1) / columns) ((q - 1) % columns) = some B :=
    (cardAt_position _ hc hq1 hq15).trans hB
  simp only [moveImageByPosition, moveImage, moveImageWrites, hcaP, hcaQ]
  rw [cell_roundtrip p columns hp1, cell_roundtrip q columns hq1]
  simp only [applyWrites, List.foldl_cons, List.foldl_nil]
  exact updSortOrder_swap_eq_map db 999999 p q hne

/-- C9: in a container whose positions are pairwise distinct (and record
ids unique) with both positions 2 and 5 occupied, the move 2 → 5 followed
by the move 5 → 2 restores the original table exactly: every record ends at
the position it held before, with all fields intact. -/
theorem c9_swap_involution (db : List ImageRec) (campusId columns : Nat)
    (A B : ImageRec) (hcols : 0 < columns)
    (hA : findImageBySortOrder (imagesOf db campusId) 2 = some A)
    (hB : findImageBySortOrder (imagesOf db campusId) 5 = some B)
    (hids : (db.map (fun r => r.id)).Nodup)
    (hpos : ((imagesOf db campusId).map (fun r => r.sortOrder)).Nodup) :
    moveImageByPosition (moveImageByPosition db campusId columns 2 5)
      campusId columns 5 2 = db := by
  obtain ⟨hAmem, hAso⟩ := findImageBySortOrder_some hA
  obtain ⟨hBmem, hBso⟩ := findImageBySortOrder_some hB
  have hAdb : A ∈ db := (List.mem_filter.mp (mem_imagesOf.mp hAmem)).1
  have hBdb : B ∈ db := (List.mem_filter.mp (mem_imagesOf.mp hBmem)).1
  have hABid : A.id ≠ B.id := by
    intro h
    have := eq_of_mem_of_nodup_ids hids hAdb hBdb h
    rw [this] at hAso
    omega
  -- the first move rewrites the table through the swap map f
  have hdb1 : moveImageByPosition db campusId columns 2 5 =
      db.map (fun r =>
        if r.id = A.id then { r with sortOrder := 5 }
        else if r.id = B.id then { r with sortOrder := 2 } else r) :=
    moveImageByPosition_swap db campusId columns 2 5 A B hcols
      (by omega) (by decide) (by omega) (by decide) hA hB hABid
  have hfcamp : ∀ r : ImageRec,
      ((fun r : ImageRec =>
        if r.id = A.id then { r with sortOrder := 5 }
        else if r.id = B.id then { r with sortOrder := 2 } else r) r).campusId
        = r.campusId := by
    intro r
    by_cases h1 : r.id = A.id
    · simp [h1]
    · by_cases h2 : r.id = B.id <;> simp [h1, h2, Ne.symm hABid]
  -- shorthand for the two updated records
  -- after the first move, position 5 holds A (updated) and position 2 holds B
  have hfind5 : findImageBySortOrder
      (imagesOf (moveImageByPosition db campusId columns 2 5) campusId) 5 =
      some { A with sortOrder := 5 } := by
    rw [hdb1]
    apply findImageBySortOrder_unique
    · apply (mem_imagesOf_map _ hfcamp).mpr
      exact ⟨A, hAmem, by simp⟩
    · rfl
    · intro y hy hyso
      obtain ⟨x, hxmem, hxy⟩ := (mem_imagesOf_map _ hfcamp).mp hy
      have hxdb : x ∈ db := (List.mem_filter.mp (mem_imagesOf.mp hxmem)).1
      by_cases h1 : x.id = A.id
      · have hxA : x = A := eq_of_mem_of_nodup_ids hids hxdb hAdb h1
        rw [← hxy, hxA]
        simp
      · by_cases h2 : x.id = B.id
        · rw [← hxy] at hyso
          simp [h1, h2, Ne.symm hABid] at hyso
        · rw [← hxy] at hyso
          simp [h1, h2] at hyso
          have hxB : x = B :=
            List.inj_on_of_nodup_map hpos hxmem hBmem (by rw [hyso, hBso])
          exact absurd (hxB ▸ rfl) h2
  have hfind2 : findImageBySortOrder
      (imagesOf (moveImageByPosition db campusId columns 2 5) campusId) 2 =
      some { B with sortOrder := 2 } := by
    rw [hdb1]
    apply findImageBySortOrder_unique
    · apply (mem_imagesOf_map _ hfcamp).mpr
      refine ⟨B, hBmem, ?_⟩
      simp [Ne.symm hABid]
    · rfl
    · intro y hy hyso
      obtain ⟨x, hxmem, hxy⟩ := (mem_imagesOf_map _ hfcamp).mp hy
      have hxdb : x ∈ db := (List.mem_filter.mp (mem_imagesOf.mp hxmem)).1
      by_cases h1 : x.id = A.id
      · rw [← hxy] at hyso
        simp [h1] at hyso
      · by_cases h2 : x.id = B.id
        · have hxB : x = B := eq_of_mem_of_nodup_ids hids hxdb hBdb h2
          rw [← hxy, hxB]
          simp [Ne.symm hABid]
        · rw [← hxy] at hyso
          simp [h1, h2] at hyso
          have hxA : x = A :=
            List.inj_on_of_nodup_map hpos hxmem hAmem (by rw [hyso, hAso])
          exact absurd (hxA ▸ rfl) h1
  -- the second move rewrites through the inverse swap map g
  have hdb2 : moveImageByPosition (moveImageByPosition db campusId columns 2 5)
      campusId columns 5 2 =
      (moveImageByPosition db campusId columns 2 5).map (fun r =>
        if r.id = ({ A with sortOrder := 5 } : ImageRec).id then
          { r with sortOrder := 2 }
        else if r.id = ({ B with sortOrder := 2 } : ImageRec).id then
          { r with sortOrder := 5 }
        else r) :=
    moveImageByPosition_swap _ campusId columns 5 2
      { A with sortOrder := 5 } { B with sortOrder := 2 } hcols
      (by omega) (by decide) (by omega) (by decide) hfind5 hfind2
      (by simpa using hABid)
  rw [hdb2, hdb1, List.map_map]
  have hid : ∀ r ∈ db, (fun r : ImageRec =>
      if r.id = ({ A with sortOrder := 5 } : ImageRec).id then
        { r with sortOrder := 2 }
      else if r.id = ({ B with sortOrder := 2 } : ImageRec).id then
        { r with sortOrder := 5 }
      else r)
      ((fun r : ImageRec =>
        if r.id = A.id then { r with sortOrder := 5 }
        else if r.id = B.id then { r with sortOrder := 2 } else r) r) = r := by
    intro r hr
    by_cases h1 : r.id = A.id
    · have hrA : r = A := eq_of_mem_of_nodup_ids hids hr hAdb h1
      rw [hrA]
      cases A
      simp_all
    · by_cases h2 : r.id = B.id
      · have hrB : r = B := eq_of_mem_of_nodup_ids hids hr hBdb h2
        rw [hrB]
        have hBA : B.id ≠ A.id := Ne.symm hABid
        cases B
        simp_all
      · have hgA : r.id ≠ ({ A with sortOrder := 5 } : ImageRec).id := by
          simpa using h1
        have hgB : r.id ≠ ({ B with sortOrder := 2 } : ImageRec).id := by
          simpa using h2
        simp [h1, h2, hgA, hgB]
  calc db.map _ = db.map (fun r => r) := List.map_congr_left hid
    _ = db := List.map_id _

/-- Record at position 2 for the C9 witness. -/
def c9RecA : ImageRec :=
  { id := 40, campusId := 1, name := "a2", fileData := "da", sortOrder := 2 }

/-- Record at position 5 for the C9 witness. -/
def c9RecB : ImageRec :=
  { id := 41, campusId := 1, name := "b5", fileData := "db", sortOrder := 5 }

/-- Table for the C9 witness. -/
def c9Db : List ImageRec := [c9RecA, c9RecB]

/-- C9 witness: the double swap on a concrete two-record container under 3
columns restores the table. -/
theorem c9_swap_involution_witness :
    (findImageBySortOrder (imagesOf c9Db 1) 2 = some c9RecA
     ∧ findImageBySortOrder (imagesOf c9Db 1) 5 = some c9RecB
     ∧ (c9Db.map (fun r => r.id)).Nodup
     ∧ ((imagesOf c9Db 1).map (fun r => r.sortOrder)).Nodup)
    ∧ moveImageByPosition (moveImageByPosition c9Db 1 3 2 5) 1 3 5 2 = c9Db :=
  ⟨⟨by decide, by decide, by decide, by decide⟩,
   c9_swap_involution c9Db 1 3 c9RecA c9RecB (by decide) (by decide)
     (by decide) (by decide) (by decide)⟩

end CampusApp
